import Mathlib

/-!
# Verification of the cfcli judge-interaction core

A shallow embedding of the core of `src/cfcli.py` (class `CFSession` and the
`submit`/`status` command bodies): request signing, response cache, API client
with retry, submit outcome handling and the verdict poller.  Machine-level
details are modelled faithfully: Python dicts become association lists with
dict update semantics, `hashlib.sha512` is implemented from FIPS 180-4,
64-bit words are `Nat` reduced `% 2 ^ 64`, and Python exceptions become
explicit result constructors.
-/

namespace Cfcli

/-! ## SHA-512 (FIPS 180-4), as called by `sign_request` via `hashlib.sha512` -/

/-- Truncate to a 64-bit word. -/
def w64 (n : Nat) : Nat := n % 18446744073709551616

/-- Right rotation of a 64-bit word. -/
def rotr (k x : Nat) : Nat := w64 ((x >>> k) ||| (x <<< (64 - k)))

/-- Logical right shift. -/
def shr (k x : Nat) : Nat := x >>> k

/-- Bitwise complement within 64 bits. -/
def bnot64 (x : Nat) : Nat := x ^^^ 18446744073709551615

def bSig0 (x : Nat) : Nat := (rotr 28 x) ^^^ (rotr 34 x) ^^^ (rotr 39 x)

def bSig1 (x : Nat) : Nat := (rotr 14 x) ^^^ (rotr 18 x) ^^^ (rotr 41 x)

def sSig0 (x : Nat) : Nat := (rotr 1 x) ^^^ (rotr 8 x) ^^^ (shr 7 x)

def sSig1 (x : Nat) : Nat := (rotr 19 x) ^^^ (rotr 61 x) ^^^ (shr 6 x)

def chF (x y z : Nat) : Nat := (x &&& y) ^^^ ((bnot64 x) &&& z)

def majF (x y z : Nat) : Nat := ((x &&& y) ^^^ (x &&& z)) ^^^ (y &&& z)

/-- The first 80 primes; SHA-512's round and initialisation constants are the
leading 64 fractional bits of their cube and square roots. -/
def sha512Primes : List Nat :=
  [2, 3, 5, 7, 11, 13, 17, 19, 23, 29, 31, 37, 41, 43, 47, 53, 59, 61, 67, 71,
   73, 79, 83, 89, 97, 101, 103, 107, 109, 113, 127, 131, 137, 139, 149, 151,
   157, 163, 167, 173, 179, 181, 191, 193, 197, 199, 211, 223, 227, 229, 233,
   239, 241, 251, 257, 263, 269, 271, 277, 281, 283, 293, 307, 311, 313, 317,
   331, 337, 347, 349, 353, 359, 367, 373, 379, 383, 389, 397, 401, 409]

/-- Binary search for the integer cube root; fuel-driven so that the kernel
can evaluate it. Invariant: `lo ^ 3 ≤ n < hi ^ 3`. -/
def icbrtAux (n : Nat) : Nat → Nat → Nat → Nat
  | lo, _, 0 => lo
  | lo, hi, f + 1 =>
    if hi ≤ lo + 1 then lo
    else
      let mid := (lo + hi) / 2
      if mid * mid * mid ≤ n then icbrtAux n mid hi f else icbrtAux n lo mid f

/-- Integer cube root. -/
def icbrt (n : Nat) : Nat := icbrtAux n 0 (n + 2) (n + 2)

/-- Binary search for the integer square root, fuel-driven likewise.
Invariant: `lo ^ 2 ≤ n < hi ^ 2`. -/
def isqrtAux (n : Nat) : Nat → Nat → Nat → Nat
  | lo, _, 0 => lo
  | lo, hi, f + 1 =>
    if hi ≤ lo + 1 then lo
    else
      let mid := (lo + hi) / 2
      if mid * mid ≤ n then isqrtAux n mid hi f else isqrtAux n lo mid f

/-- Integer square root. -/
def isqrt (n : Nat) : Nat := isqrtAux n 0 (n + 2) (n + 2)

/-- SHA-512 round constants K₀…K₇₉. -/
def kList : List Nat := sha512Primes.map (fun p => icbrt (p * 2 ^ 192) % 2 ^ 64)

/-- SHA-512 initial hash value H⁽⁰⁾. -/
def h0List : List Nat := (sha512Primes.take 8).map (fun p => isqrt (p * 2 ^ 128) % 2 ^ 64)

/-- Split a list into chunks of `k` elements (fuel-driven). -/
def chunksF (k : Nat) : Nat → List α → List (List α)
  | 0, _ => []
  | _, [] => []
  | f + 1, l => l.take k :: chunksF k f (l.drop k)

/-- Big-endian byte list of `n`, 16 bytes (the 128-bit length field). -/
def be128 (n : Nat) : List Nat :=
  (List.range 16).map (fun i => (n >>> (8 * (15 - i))) &&& 255)

/-- A big-endian word from a byte list. -/
def beWord (bs : List Nat) : Nat := bs.foldl (fun acc b => acc * 256 + b) 0

/-- SHA-512 message padding: append `0x80`, zero-pad to 112 mod 128, then the
message bit length as a 128-bit big-endian integer. -/
def padMessage (msg : List Nat) : List Nat :=
  let L := msg.length
  let zeros := (112 + 128 - ((L + 1) % 128)) % 128
  msg ++ [128] ++ List.replicate zeros 0 ++ be128 (8 * L)

/-- Extend the 16 message-schedule words to 80. -/
def extendW : Array Nat → Nat → Array Nat
  | w, 0 => w
  | w, f + 1 =>
    let n := w.size
    let x := w64 (sSig1 (w.getD (n - 2) 0) + w.getD (n - 7) 0 +
                  sSig0 (w.getD (n - 15) 0) + w.getD (n - 16) 0)
    extendW (w.push x) f

/-- The eight working registers of the compression function. -/
structure Regs where
  a : Nat
  b : Nat
  c : Nat
  d : Nat
  e : Nat
  f : Nat
  g : Nat
  h : Nat

/-- One SHA-512 round, consuming a (round constant, schedule word) pair. -/
def roundF (r : Regs) (kw : Nat × Nat) : Regs :=
  let t1 := w64 (r.h + bSig1 r.e + chF r.e r.f r.g + kw.1 + kw.2)
  let t2 := w64 (bSig0 r.a + majF r.a r.b r.c)
  ⟨w64 (t1 + t2), r.a, r.b, r.c, w64 (r.d + t1), r.e, r.f, r.g⟩

/-- Compress one 1024-bit block (given as 16 big-endian words) into the hash state. -/
def compressBlock (hs : List Nat) (ws16 : List Nat) : List Nat :=
  let w := extendW ws16.toArray 64
  let init : Regs := ⟨hs.getD 0 0, hs.getD 1 0, hs.getD 2 0, hs.getD 3 0,
                      hs.getD 4 0, hs.getD 5 0, hs.getD 6 0, hs.getD 7 0⟩
  let fin := (kList.zip w.toList).foldl roundF init
  [w64 (hs.getD 0 0 + fin.a), w64 (hs.getD 1 0 + fin.b), w64 (hs.getD 2 0 + fin.c),
   w64 (hs.getD 3 0 + fin.d), w64 (hs.getD 4 0 + fin.e), w64 (hs.getD 5 0 + fin.f),
   w64 (hs.getD 6 0 + fin.g), w64 (hs.getD 7 0 + fin.h)]

/-- SHA-512 of a byte list, as eight 64-bit words. -/
def sha512Words (msg : List Nat) : List Nat :=
  let padded := padMessage msg
  (chunksF 128 (padded.length + 1) padded).foldl
    (fun h b => compressBlock h ((chunksF 8 17 b).map beWord)) h0List

/-- A lowercase hex digit. -/
def hexDigit (n : Nat) : Char := if n < 10 then Char.ofNat (48 + n) else Char.ofNat (87 + n)

/-- A 64-bit word as 16 lowercase hex digits. -/
def hexWord64 (n : Nat) : String :=
  String.mk ((List.range 16).map (fun i => hexDigit ((n >>> (60 - 4 * i)) &&& 15)))

/-- Lowercase hex digest of SHA-512 over a byte list. -/
def sha512Hex (msg : List Nat) : String := String.join ((sha512Words msg).map hexWord64)

/-- UTF-8 encoding of one character (as Python's `str.encode('utf-8')`). -/
def utf8Bytes (c : Char) : List Nat :=
  let n := c.toNat
  if n < 128 then [n]
  else if n < 2048 then [192 ||| (n >>> 6), 128 ||| (n &&& 63)]
  else if n < 65536 then
    [224 ||| (n >>> 12), 128 ||| ((n >>> 6) &&& 63), 128 ||| (n &&& 63)]
  else
    [240 ||| (n >>> 18), 128 ||| ((n >>> 12) &&& 63),
     128 ||| ((n >>> 6) &&& 63), 128 ||| (n &&& 63)]

/-- UTF-8 bytes of a string. -/
def strBytes (s : String) : List Nat := s.data.foldr (fun c acc => utf8Bytes c ++ acc) []

/-- `hashlib.sha512(s.encode('utf-8')).hexdigest()`. -/
def sha512HexOfString (s : String) : String := sha512Hex (strBytes s)

/-! ## Python dicts as association lists -/

/-- A Python `dict[str, str]`: an insertion-ordered association list; in every
dict the code builds, keys are unique. -/
abbrev Params := List (String × String)

/-- `d[k] = v`: replace the value in place when the key is present, else append. -/
def dset (ps : Params) (k v : String) : Params :=
  if (ps.map Prod.fst).contains k then
    ps.map (fun p => if p.1 = k then (k, v) else p)
  else ps ++ [(k, v)]

/-- `d.update(other)`: set every binding of `other` in `d`, in order. -/
def dictUpdate (ps qs : Params) : Params :=
  qs.foldl (fun acc kv => dset acc kv.1 kv.2) ps

/-- `d[k]` (defaulting to `""`; in the modelled code the key is always present). -/
def lookupD (ps : Params) (k : String) : String := (ps.lookup k).getD ""

/-- `sorted(params.keys())`: the keys in lexicographic order. -/
def sortedKeys (ps : Params) : List String := (ps.map Prod.fst).mergeSort

/-- Python's `str.rstrip('&')`: remove all trailing `'&'` characters. -/
def rstripAmp (s : String) : String :=
  String.mk ((s.data.reverse.dropWhile (fun c => c = '&')).reverse)

/-! ## `sign_request` (src/cfcli.py lines 70-89) -/

/-- The string that gets hashed (lines 73-81): `"{method}?"`, then
`"{key}={value}&"` appended for each key in sorted order, then all trailing
`'&'` characters stripped, then `"#{secret}"`. -/
def sigString (method : String) (ps : Params) (secret : String) : String :=
  rstripAmp ((sortedKeys ps).foldl
    (fun acc k => acc ++ k ++ "=" ++ lookupD ps k ++ "&") (method ++ "?")) ++
    "#" ++ secret

/-- The `apiSig` value (lines 84-87): the literal prefix `"123456"` followed by
the SHA-512 hex digest of the signature string. -/
def signApiSig (method : String) (ps : Params) (secret : String) : String :=
  "123456" ++ sha512HexOfString (sigString method ps secret)

/-- `sign_request`: the params dict with `apiSig` set (the Python code mutates
the dict in place and also returns it). -/
def signRequest (method : String) (ps : Params) (secret : String) : Params :=
  dset ps "apiSig" (signApiSig method ps secret)

/-- Join with `"&"` separators and no trailing `'&'` — the claim's
`{k1}={v1}&{k2}={v2}&...` shape. -/
def ampJoin : List String → String
  | [] => ""
  | [p] => p
  | p :: q :: rest => p ++ "&" ++ ampJoin (q :: rest)

/-- The canonical string as the C4 claim words it:
`"{method}?{k1}={v1}&{k2}={v2}&...#{secret}"` with keys in lexicographic order
and no trailing `'&'` before the `'#'`. -/
def claimSigString (method : String) (ps : Params) (secret : String) : String :=
  method ++ "?" ++
    ampJoin ((sortedKeys ps).map (fun k => k ++ "=" ++ lookupD ps k)) ++
    "#" ++ secret

/-! ## Credentials, `is_authenticated`, `api_auth_params` (lines 38-68) -/

/-- The credential triple; a field is `none` when the variable is unset. -/
structure Creds where
  handle : Option String
  apiKey : Option String
  apiSecret : Option String

/-- Python truthiness of an optional string: `None` and `""` are falsy. -/
def truthy : Option String → Bool
  | none => false
  | some s => !s.isEmpty

/-- `is_authenticated` (line 47): `self.handle and self.api_key and self.api_secret`. -/
def isAuthenticated (c : Creds) : Bool :=
  truthy c.handle && truthy c.apiKey && truthy c.apiSecret

/-- Python exceptions raised by the modelled code. -/
inductive PyErr
  /-- `ValueError("Not authenticated. …")` — the spec's `AuthenticationError`. -/
  | authenticationError
  /-- `Exception("API Error: …")` for a non-`"OK"` envelope — the spec's `ApiError`. -/
  | apiError (comment : Option String)
  /-- `response.json()` raised or the envelope was unusable. -/
  | jsonError
  /-- Python's recursion limit; models the fuel of the retry recursion. -/
  | recursionError
  deriving DecidableEq

deriving instance DecidableEq for Except

/-- The 36-character alphabet `string.ascii_lowercase + string.digits`. -/
def randAlphabet : List Char := "abcdefghijklmnopqrstuvwxyz0123456789".data

/-- The 6-character nonce: six draws of `random.choice(alphabet)`; the
randomness source `rng` says which alphabet index each draw picks. -/
def randString (rng : Fin 6 → Fin 36) : String :=
  String.mk (List.ofFn (fun i : Fin 6 => randAlphabet.getD (rng i).val 'a'))

/-- `api_auth_params` (lines 50-68): raises unless authenticated, else returns
the dict `{"apiKey": key, "time": str(int(time.time())), "rand": nonce}`. -/
def apiAuthParams (c : Creds) (now : Nat) (rng : Fin 6 → Fin 36) : Except PyErr Params :=
  if isAuthenticated c then
    .ok [("apiKey", c.apiKey.getD ""), ("time", toString now), ("rand", randString rng)]
  else .error .authenticationError

/-- The mutation `call_api` applies to the caller's `params` dict before
dispatch (lines 104-107): when authenticated and the method is not
`"user.info"`, merge the auth parameters in and sign; otherwise the dict is
left untouched. -/
def callApiParamsEffect (c : Creds) (now : Nat) (rng : Fin 6 → Fin 36)
    (method : String) (ps : Params) : Params :=
  if isAuthenticated c && method != "user.info" then
    match apiAuthParams c now rng with
    | .ok aps => signRequest method (dictUpdate ps aps) (c.apiSecret.getD "")
    | .error _ => ps
  else ps

/-! ## The response cache (lines 168-192) -/

/-- A cache file: its mtime and its payload; `payload = none` models a body
that `json.load` cannot read back. -/
structure CacheEntry (α : Type) where
  storedAt : Nat
  payload : Option α

/-- `_get_from_cache` (lines 168-183): a miss when the file is absent, when its
age strictly exceeds `CACHE_TTL = 300` seconds, or when the payload is
unreadable. -/
def getFromCache (store : String → Option (CacheEntry α)) (now : Nat)
    (key : String) : Option α :=
  match store key with
  | none => none
  | some e => if now - e.storedAt > 300 then none else e.payload

/-! ## `_retry_with_backoff` (lines 194-206) -/

/-- The retry loop from attempt `i` with `k` attempts left.  `f j` is the
outcome of the retried thunk on attempt `j` (a value or a raised exception).
Returns the backoff delays slept (in seconds, one before each attempt) and the
outcome: `none` models Python's implicit `None` when the loop runs zero times,
`some r` the returned value or the re-raised final exception. -/
def retryFrom (f : Nat → Except ε α) (baseDelay : Nat) :
    Nat → Nat → List Nat × Option (Except ε α)
  | _, 0 => ([], none)
  | i, k + 1 =>
    let delay := baseDelay * 2 ^ i
    match f i with
    | .ok a => ([delay], some (.ok a))
    | .error e =>
      if k = 0 then ([delay], some (.error e))
      else
        let rest := retryFrom f baseDelay (i + 1) k
        (delay :: rest.1, rest.2)

/-- `_retry_with_backoff(func, max_retries, base_delay)`. -/
def retryWithBackoff (f : Nat → Except ε α) (maxRetries baseDelay : Nat) :
    List Nat × Option (Except ε α) :=
  retryFrom f baseDelay 0 maxRetries

/-! ## `call_api` (lines 91-124) as a trace-producing model

`call_api` recovers from a transport error by handing `lambda:
self.call_api(method, params)` to `_retry_with_backoff`, so the network
conversation is a recursion; `fuel` plays the role of Python's recursion
limit and exhausting it models `RecursionError`.  The environment gives the
result of the `i`-th cache lookup and of the `i`-th HTTP dispatch. -/

/-- The decoded JSON envelope of an API response. -/
structure ApiData where
  status : Option String
  comment : Option String
  body : Nat
  deriving DecidableEq

/-- The outcome of one HTTP dispatch. -/
inductive NetOut
  /-- 2xx with a JSON body. -/
  | ok (d : ApiData)
  /-- `requests.RequestException`: connection error, timeout, or a non-2xx
  status raised by `raise_for_status`. -/
  | transportErr
  /-- 2xx but `response.json()` raised. -/
  | badJson
  deriving DecidableEq

/-- Events observable in a `call_api` run. -/
inductive Ev
  /-- `_get_from_cache` consulted. -/
  | lookup
  /-- `session.get` issued. -/
  | dispatch
  /-- `_save_to_cache` wrote `d`. -/
  | write (d : ApiData)
  deriving DecidableEq

/-- `look i`: the `i`-th cache lookup (`none` is a miss or a falsy cached
value); `net i`: the `i`-th HTTP dispatch. -/
structure Env where
  look : Nat → Option ApiData
  net : Nat → NetOut

/-- Lookup / dispatch counters. -/
abbrev Ctr := Nat × Nat

/-- The loop of `_retry_with_backoff` specialised to `func = lambda:
self.call_api(method, params)`: `fc` performs one nested `call_api` and `k`
attempts remain.  A value returned by an attempt is returned; an exception is
swallowed except on the last attempt, where it is re-raised. -/
def retryGo (fc : Ctr → List Ev × Except PyErr (Option ApiData) × Ctr) :
    Ctr → Nat → List Ev × Except PyErr (Option ApiData) × Ctr
  | ctr, 0 => ([], .error .recursionError, ctr)
  | ctr, k + 1 =>
    let t := fc ctr
    match t.2.1 with
    | .ok a => (t.1, .ok a, t.2.2)
    | .error e =>
      if k = 0 then (t.1, .error e, t.2.2)
      else
        let rest := retryGo fc t.2.2 k
        (t.1 ++ rest.1, rest.2.1, rest.2.2)

/-- `call_api`: cache lookup first; on a hit return the cached data; else
dispatch; a transport error triggers the 3-attempt retry of itself whose value
is discarded (the `except` block falls through, returning `None`); an `"OK"`
envelope is written to the cache and returned; any other envelope raises
`ApiError`. -/
def callApi (env : Env) : Nat → Ctr → List Ev × Except PyErr (Option ApiData) × Ctr
  | 0, ctr => ([], .error .recursionError, ctr)
  | fuel + 1, (li, ni) =>
    match env.look li with
    | some d => ([.lookup], .ok (some d), (li + 1, ni))
    | none =>
      match env.net ni with
      | .ok d =>
        if d.status = some "OK" then
          ([.lookup, .dispatch, .write d], .ok (some d), (li + 1, ni + 1))
        else
          ([.lookup, .dispatch], .error (.apiError d.comment), (li + 1, ni + 1))
      | .badJson => ([.lookup, .dispatch], .error .jsonError, (li + 1, ni + 1))
      | .transportErr =>
        -- the retry runs `call_api` again (at one less fuel); a normal return
        -- is discarded (the `except` block falls through, so `call_api`
        -- returns `None`), a raised exception propagates
        let t := retryGo (callApi env fuel) (li + 1, ni + 1) 3
        match t.2.1 with
        | .ok _ => (.lookup :: .dispatch :: t.1, .ok none, t.2.2)
        | .error e => (.lookup :: .dispatch :: t.1, .error e, t.2.2)

/-! ## The `status` verdict poller (lines 570-615) -/

/-- The JSON returned by `data/submitSource`; `none` fields are absent keys,
`hasTestset` is `"testset" in data`. -/
structure SubmissionData where
  verdict : Option String
  timeConsumedMillis : Option Nat
  memoryConsumedBytes : Option Nat
  hasTestset : Bool
  testCount : Option Nat
  passedTestCount : Option Nat
  deriving DecidableEq

/-- One polling tick: the HTTP status and (when 200) the decoded body. -/
structure Tick where
  httpStatus : Nat
  data : SubmissionData
  deriving DecidableEq

/-- What the terminal branch prints (lines 600-611). -/
structure VerdictReport where
  verdict : Option String
  timeMs : Option Nat
  memKB : Nat
  tests : Option (Nat × Nat)
  deriving DecidableEq

/-- The queued test (line 590): `verdict in ["TESTING", ""]`. -/
def isQueuedVerdict (v : Option String) : Bool := v == some "TESTING" || v == some ""

/-- Result of the poll loop. -/
inductive PollResult
  /-- A non-200 tick on (0-based) attempt `attempt`: print the HTTP error, `break`. -/
  | httpError (code : Nat) (attempt : Nat)
  /-- A terminal verdict surfaced on attempt `attempt`. -/
  | terminal (attempt : Nat) (r : VerdictReport)
  /-- `data.get("memoryConsumedBytes", "N/A") // 1024` raised `TypeError`
  because the memory field was absent; the outer `except` reports an error. -/
  | crashed (attempt : Nat)
  /-- The `for … else` branch: attempt budget spent, "check manually";
  `fetches` requests were made and `sleepSecs` seconds were slept. -/
  | exhausted (fetches : Nat) (sleepSecs : Nat)
  deriving DecidableEq

/-- The polling loop at attempt `i` with `rem` attempts remaining, having slept
`slept` seconds so far (2 seconds after every queued tick). -/
def pollGo (src : Nat → Tick) : Nat → Nat → Nat → PollResult
  | i, 0, slept => .exhausted i slept
  | i, rem + 1, slept =>
    let t := src i
    if t.httpStatus ≠ 200 then .httpError t.httpStatus i
    else if isQueuedVerdict t.data.verdict then pollGo src (i + 1) rem (slept + 2)
    else
      match t.data.memoryConsumedBytes with
      | none => .crashed i
      | some mem =>
        .terminal i
          { verdict := t.data.verdict
            timeMs := t.data.timeConsumedMillis
            memKB := mem / 1024
            tests :=
              if t.data.hasTestset && t.data.testCount.isSome then
                some (t.data.passedTestCount.getD 0, t.data.testCount.getD 0)
              else none }

/-- The submission-status poll: `max_attempts = 10`, 2-second sleeps. -/
def statusPoll (src : Nat → Tick) : PollResult := pollGo src 0 10 0

/-! ## Submit outcome (lines 528-548) -/

/-- Is `needle` an infix of the character list? (Python's `in` on strings.) -/
def listHasInfix (needle : List Char) : List Char → Bool
  | [] => needle.isEmpty
  | c :: rest => needle.isPrefixOf (c :: rest) || listHasInfix needle rest

/-- Python's `needle in haystack` for strings. -/
def strContains (hay needle : String) : Bool := listHasInfix needle.data hay.data

/-- Outcome of the submit POST handling. -/
inductive SubmitOutcome
  /-- "You have submitted exactly the same code before." warning, early return. -/
  | duplicateWarning
  /-- "Solution submitted successfully!". -/
  | success
  /-- "Submission failed. …". -/
  | failed
  deriving DecidableEq

/-- The judge's duplicate-submission phrase (line 532). -/
def duplicatePhrase : String := "You have submitted exactly the same code"

/-- The response handling of `submit` (lines 532-548): the duplicate phrase in
the body yields the non-fatal warning and an early return; otherwise landing on
the contest's own-submissions page is success; anything else is failure. -/
def submitOutcome (contestId : Nat) (respText respUrl : String) : SubmitOutcome :=
  if strContains respText duplicatePhrase then .duplicateWarning
  else if strContains respUrl ("contest/" ++ toString contestId ++ "/my") then .success
  else .failed

/-! ## C5: cache TTL -/

/-- C5: a cache entry written at time `T` is returned while `now - T < 300`
seconds — in particular at `T + 299` — and is a miss once its age exceeds the
TTL — in particular at `T + 301`; a get for an absent key is likewise a miss. -/
theorem C5_cache_ttl {α : Type} (store : String → Option (CacheEntry α))
    (key absentKey : String) (T : Nat) (d : α)
    (hstore : store key = some ⟨T, some d⟩) (habsent : store absentKey = none) :
    (∀ now, now - T < 300 → getFromCache store now key = some d) ∧
    getFromCache store (T + 299) key = some d ∧
    getFromCache store (T + 301) key = none ∧
    (∀ now, now - T > 300 → getFromCache store now key = none) ∧
    (∀ now, getFromCache store now absentKey = none) := by
  refine ⟨fun now h => ?_, ?_, ?_, fun now h => ?_, fun now => ?_⟩ <;>
    simp only [getFromCache, hstore, habsent] <;> first
  | (rw [if_neg] ; omega)
  | (rw [if_pos] ; omega)

/-- C5 witness at a concrete store: a hit at age 299 s, a miss at age 301 s,
and a miss for an absent key. -/
theorem C5_cache_ttl_witness :
    getFromCache (fun k => if k = "contest.list_0" then some ⟨100, some 7⟩ else none)
      399 "contest.list_0" = some 7 ∧
    getFromCache (fun k => if k = "contest.list_0" then some ⟨100, some 7⟩ else none)
      401 "contest.list_0" = none ∧
    getFromCache (fun k => if k = "contest.list_0" then some ⟨100, some 7⟩ else none)
      399 "user.info_1" = none :=
  ⟨(C5_cache_ttl _ _ "user.info_1" 100 7 rfl rfl).2.1,
   (C5_cache_ttl _ _ "user.info_1" 100 7 rfl rfl).2.2.1,
   (C5_cache_ttl _ "contest.list_0" _ 100 7 rfl rfl).2.2.2.2 399⟩

/-! ## C8: duplicate submission is a warning, not a failure -/

/-- C8: a submit response body containing the judge's duplicate-submission
phrase produces the distinct, non-fatal warning outcome — it is not reported
as a failed submission (and this branch raises nothing: `submitOutcome` is a
total function into outcomes). -/
theorem C8_duplicate_warning (cid : Nat) (respText respUrl : String)
    (h : strContains respText duplicatePhrase = true) :
    submitOutcome cid respText respUrl = .duplicateWarning ∧
    submitOutcome cid respText respUrl ≠ .failed := by
  simp [submitOutcome, h]

/-- C8 witness on a concrete response body carrying the judge's phrase. -/
theorem C8_duplicate_warning_witness :
    submitOutcome 1234
      "<span class=error>You have submitted exactly the same code before</span>"
      "https://codeforces.com/contest/1234/submit" = .duplicateWarning :=
  (C8_duplicate_warning 1234 _ _ (by decide)).1

/-! ## C1: retry bound and exponential backoff -/

/-- C1: with `max_retries = 3` and `base_delay = 1`, a thunk that raises a
transport error on every attempt is attempted exactly 3 times, the delay slept
before attempt `i` is `1 * 2 ^ i` seconds (1 s, 2 s, 4 s), and after the
budget is exhausted the loop re-raises the final attempt's error. -/
theorem C1_retry_bound {ε α : Type} (f : Nat → Except ε α) (errs : Nat → ε)
    (h : ∀ i, f i = .error (errs i)) :
    (retryWithBackoff f 3 1).1.length = 3 ∧
    retryWithBackoff f 3 1 =
      ([1 * 2 ^ 0, 1 * 2 ^ 1, 1 * 2 ^ 2], some (.error (errs 2))) := by
  refine ⟨?_, ?_⟩ <;> simp [retryWithBackoff, retryFrom, h 0, h 1, h 2]

/-- C1 witness: an always-failing thunk, attempted 3 times with delays 1, 2, 4
before raising the final error. -/
theorem C1_retry_bound_witness :
    retryWithBackoff (fun _ => (Except.error 99 : Except Nat Nat)) 3 1 =
      ([1 * 2 ^ 0, 1 * 2 ^ 1, 1 * 2 ^ 2], some (.error 99)) :=
  (C1_retry_bound _ (fun _ => 99) (fun _ => rfl)).2

/-! ## C7: `api_auth_params` -/

/-- C7: `api_auth_params` fails with the authentication error whenever the
credential triple is incomplete (equivalently, whenever `is_authenticated` is
falsy), and with complete credentials returns exactly the mapping
`{apiKey, time, rand}` where `time` is the Unix timestamp rendered as a
decimal string and `rand` is a 6-character string over lowercase letters and
digits. -/
theorem C7_auth_params (c : Creds) (now : Nat) (rng : Fin 6 → Fin 36) :
    ((c.handle = none ∨ c.apiKey = none ∨ c.apiSecret = none) →
      apiAuthParams c now rng = .error .authenticationError) ∧
    (isAuthenticated c = false →
      apiAuthParams c now rng = .error .authenticationError) ∧
    (∀ k, c.apiKey = some k → isAuthenticated c = true →
      apiAuthParams c now rng =
        .ok [("apiKey", k), ("time", toString now), ("rand", randString rng)]) ∧
    (randString rng).length = 6 ∧
    (∀ ch ∈ (randString rng).data, ch ∈ randAlphabet) := by
  refine ⟨fun h => ?_, fun h => ?_, fun k hk hauth => ?_, ?_, fun ch hch => ?_⟩
  · have hfalse : isAuthenticated c = false := by
      rcases h with h | h | h <;> simp [isAuthenticated, truthy, h]
    simp [apiAuthParams, hfalse]
  · simp [apiAuthParams, h]
  · simp [apiAuthParams, hauth, hk]
  · rw [show (randString rng).length =
      (List.ofFn (fun i : Fin 6 => randAlphabet.getD (rng i).val 'a')).length from rfl,
      List.length_ofFn]
  · have hdata : (randString rng).data =
        List.ofFn (fun i : Fin 6 => randAlphabet.getD (rng i).val 'a') := rfl
    rw [hdata, List.mem_ofFn] at hch
    obtain ⟨i, hi⟩ := hch
    have hlt : (rng i).val < randAlphabet.length := (rng i).isLt
    rw [← hi]
    show randAlphabet.getD (rng i).val 'a' ∈ randAlphabet
    rw [List.getD_eq_getElem _ _ hlt]
    exact List.getElem_mem hlt

/-- C7 witness: incomplete credentials fail; complete credentials yield the
three-key mapping with a 6-character alphanumeric nonce. -/
theorem C7_auth_params_witness :
    apiAuthParams ⟨none, some "k", some "s"⟩ 1700000000 (fun _ => ⟨0, by decide⟩) =
      .error .authenticationError ∧
    apiAuthParams ⟨some "alice", some "k", some "s"⟩ 1700000000 (fun _ => ⟨0, by decide⟩) =
      .ok [("apiKey", "k"), ("time", "1700000000"),
           ("rand", randString (fun _ => ⟨0, by decide⟩))] ∧
    (randString (fun _ => ⟨0, by decide⟩)).length = 6 :=
  ⟨(C7_auth_params ⟨none, some "k", some "s"⟩ 1700000000 _).1 (Or.inl rfl),
   (C7_auth_params ⟨some "alice", some "k", some "s"⟩ 1700000000 _).2.2.1 "k" rfl (by decide),
   (C7_auth_params ⟨some "alice", some "k", some "s"⟩ 1700000000 _).2.2.2.1⟩

/-! ## C2: the verdict poller terminates -/

/-- While the budget lasts and every tick is HTTP-200 and queued, the loop
spends the whole budget, sleeping 2 seconds per tick, and exhausts. -/
theorem pollGo_exhausted (src : Nat → Tick) :
    ∀ rem i slept,
      (∀ j, j < rem → (src (i + j)).httpStatus = 200 ∧
        isQueuedVerdict (src (i + j)).data.verdict = true) →
      pollGo src i rem slept = .exhausted (i + rem) (slept + 2 * rem) := by
  intro rem
  induction rem with
  | zero => intro i slept _; simp [pollGo]
  | succ n ih =>
    intro i slept h
    obtain ⟨h200, hq⟩ := h 0 (by omega)
    rw [Nat.add_zero] at h200 hq
    have step : pollGo src i (n + 1) slept = pollGo src (i + 1) n (slept + 2) := by
      simp [pollGo, h200, hq]
    rw [step, ih (i + 1) (slept + 2) (fun j hj => by
      have h' := h (j + 1) (by omega)
      rw [show i + (j + 1) = i + 1 + j by omega] at h'
      exact h')]
    congr 1 <;> omega

/-- If ticks `i, …, i+k-1` are queued and tick `i+k` (within budget) is
HTTP-200, non-queued, with the memory field present, the loop stops there and
surfaces that tick's fields. -/
theorem pollGo_terminal (src : Nat → Tick) :
    ∀ rem i slept k, k < rem →
      (∀ j, j < k → (src (i + j)).httpStatus = 200 ∧
        isQueuedVerdict (src (i + j)).data.verdict = true) →
      (src (i + k)).httpStatus = 200 →
      isQueuedVerdict (src (i + k)).data.verdict = false →
      ∀ mem, (src (i + k)).data.memoryConsumedBytes = some mem →
      pollGo src i rem slept = .terminal (i + k)
        { verdict := (src (i + k)).data.verdict
          timeMs := (src (i + k)).data.timeConsumedMillis
          memKB := mem / 1024
          tests :=
            if (src (i + k)).data.hasTestset && (src (i + k)).data.testCount.isSome then
              some ((src (i + k)).data.passedTestCount.getD 0,
                    (src (i + k)).data.testCount.getD 0)
            else none } := by
  intro rem
  induction rem with
  | zero => intro i slept k hk; omega
  | succ n ih =>
    intro i slept k hk hprev h200 hnq mem hmem
    cases k with
    | zero =>
      rw [Nat.add_zero] at h200 hnq hmem ⊢
      simp [pollGo, h200, hnq, hmem]
    | succ m =>
      obtain ⟨p200, pq⟩ := hprev 0 (by omega)
      rw [Nat.add_zero] at p200 pq
      have step : pollGo src i (n + 1) slept = pollGo src (i + 1) n (slept + 2) := by
        simp [pollGo, p200, pq]
      have hik : i + (m + 1) = i + 1 + m := by omega
      rw [hik] at h200 hnq hmem ⊢
      rw [step]
      exact ih (i + 1) (slept + 2) m (by omega) (fun j hj => by
        have h' := hprev (j + 1) (by omega)
        rw [show i + (j + 1) = i + 1 + j by omega] at h'
        exact h') h200 hnq mem hmem

/-- C2: a verdict source that is HTTP-200 but empty/queued (`"TESTING"`/`""`)
on every tick makes the poll stop after exactly 10 fetches — sleeping 2
seconds after each queued tick, 20 seconds in all — reporting the
check-manually (exhausted) outcome; a source whose first non-queued tick is
attempt `k < 10` (its memory field present) stops at attempt `k` and surfaces
that tick's verdict, time consumed, memory consumed and passed/total test
counts when available. -/
theorem C2_poller_terminates (src : Nat → Tick) :
    ((∀ i, i < 10 → (src i).httpStatus = 200 ∧
        isQueuedVerdict (src i).data.verdict = true) →
      statusPoll src = .exhausted 10 20) ∧
    (∀ k, k < 10 →
      (∀ i, i < k → (src i).httpStatus = 200 ∧
        isQueuedVerdict (src i).data.verdict = true) →
      (src k).httpStatus = 200 → isQueuedVerdict (src k).data.verdict = false →
      ∀ mem, (src k).data.memoryConsumedBytes = some mem →
      statusPoll src = .terminal k
        { verdict := (src k).data.verdict
          timeMs := (src k).data.timeConsumedMillis
          memKB := mem / 1024
          tests :=
            if (src k).data.hasTestset && (src k).data.testCount.isSome then
              some ((src k).data.passedTestCount.getD 0, (src k).data.testCount.getD 0)
            else none }) := by
  constructor
  · intro h
    have := pollGo_exhausted src 10 0 0 (fun j hj => by simpa using h j hj)
    simpa [statusPoll] using this
  · intro k hk hprev h200 hnq mem hmem
    have := pollGo_terminal src 10 0 0 k hk (fun j hj => by simpa using hprev j hj)
      (by simpa using h200) (by simpa using hnq) mem (by simpa using hmem)
    simpa [statusPoll] using this

/-- C2 witness: an always-queued source exhausts after 10 fetches and 20
seconds asleep; a source turning `"OK"` on attempt 3 stops there with time,
memory (KB) and test counts surfaced. -/
theorem C2_poller_terminates_witness :
    statusPoll (fun _ => ⟨200, some "TESTING", none, none, false, none, none⟩) =
      .exhausted 10 20 ∧
    statusPoll (fun i => if i < 3 then ⟨200, some "TESTING", none, none, false, none, none⟩
        else ⟨200, some "OK", some 155, some 262144, true, some 57, some 57⟩) =
      .terminal 3 ⟨some "OK", some 155, 256, some (57, 57)⟩ :=
  ⟨(C2_poller_terminates _).1 (by decide),
   (C2_poller_terminates _).2 3 (by decide) (by decide) (by decide) (by decide)
     262144 (by decide)⟩

/-! ## C6: lookup precedes dispatch; only `"OK"` envelopes reach the cache -/

/-- Every `call_api` trace is empty (fuel ran out before the call began) or
starts with the cache lookup. -/
theorem callApi_trace_shape (env : Env) (fuel : Nat) (ctr : Ctr) :
    (callApi env fuel ctr).1 = [] ∨
    ∃ rest, (callApi env fuel ctr).1 = .lookup :: rest := by
  rcases fuel with _ | fuel
  · exact Or.inl rfl
  · rcases ctr with ⟨li, ni⟩
    right
    rcases hl : env.look li with _ | d
    · rcases hn : env.net ni with d | _ | _
      · by_cases hs : d.status = some "OK" <;> simp [callApi, hl, hn, hs]
      · rcases hr : retryGo (callApi env fuel) (li + 1, ni + 1) 3 with ⟨evs, r, c'⟩
        rcases r with a | e <;> simp [callApi, hl, hn, hr]
      · simp [callApi, hl, hn]
    · simp [callApi, hl]

/-- `retryGo` preserves "every cache write in the trace has status `"OK"`". -/
theorem retryGo_write_ok
    (fc : Ctr → List Ev × Except PyErr (Option ApiData) × Ctr)
    (hfc : ∀ c d, Ev.write d ∈ (fc c).1 → d.status = some "OK") :
    ∀ k c d, Ev.write d ∈ (retryGo fc c k).1 → d.status = some "OK" := by
  intro k
  induction k with
  | zero => intro c d hd; simp [retryGo] at hd
  | succ n ih =>
    intro c d hd
    rcases hr : fc c with ⟨evs, r, c'⟩
    have hin : Ev.write d ∈ (fc c).1 → d.status = some "OK" := hfc c d
    rw [hr] at hin
    rcases r with e | a
    · simp only [retryGo, hr] at hd
      split at hd
      · exact hin (by simpa using hd)
      · have hd' : Ev.write d ∈ evs ++ (retryGo fc c' n).1 := by simpa using hd
        rcases List.mem_append.mp hd' with h1 | h1
        · exact hin (by simpa using h1)
        · exact ih c' d h1
    · simp only [retryGo, hr] at hd
      exact hin (by simpa using hd)

/-- Every payload `call_api` ever writes to the cache has status `"OK"`. -/
theorem callApi_write_ok (env : Env) :
    ∀ fuel ctr d, Ev.write d ∈ (callApi env fuel ctr).1 → d.status = some "OK" := by
  intro fuel
  induction fuel with
  | zero => intro ctr d hd; simp [callApi] at hd
  | succ n ih =>
    intro ctr d hd
    rcases ctr with ⟨li, ni⟩
    rcases hl : env.look li with _ | dc
    · rcases hn : env.net ni with dn | _ | _
      · by_cases hs : dn.status = some "OK"
        · simp only [callApi, hl, hn, if_pos hs] at hd
          simp at hd
          rw [hd, hs]
        · simp only [callApi, hl, hn, if_neg hs] at hd
          simp at hd
      · rcases hr : retryGo (callApi env n) (li + 1, ni + 1) 3 with ⟨evs, r, c'⟩
        have hevs : evs = (retryGo (callApi env n) (li + 1, ni + 1) 3).1 := by rw [hr]
        have hmem : Ev.write d ∈ Ev.lookup :: Ev.dispatch :: evs := by
          rcases r with a | e <;> simpa [callApi, hl, hn, hr] using hd
        have : Ev.write d ∈ evs := by simpa using hmem
        exact retryGo_write_ok (callApi env n) (fun c d hd => ih c d hd) 3
          (li + 1, ni + 1) d (hevs ▸ this)
      · simp only [callApi, hl, hn] at hd
        simp at hd
    · simp only [callApi, hl] at hd
      simp at hd

/-- C6: in every run of `call_api` the cache lookup comes before any network
dispatch (whenever position `i` of the event trace is a dispatch, an earlier
position is the lookup), and a cache write only stores a response whose status
field equals `"OK"`. -/
theorem C6_cache_discipline (env : Env) (fuel : Nat) (ctr : Ctr) :
    (∀ i : Nat, (callApi env fuel ctr).1[i]? = some Ev.dispatch →
      ∃ j : Nat, j < i ∧ (callApi env fuel ctr).1[j]? = some Ev.lookup) ∧
    (∀ d, Ev.write d ∈ (callApi env fuel ctr).1 → d.status = some "OK") := by
  constructor
  · intro i hi
    rcases callApi_trace_shape env fuel ctr with h | ⟨rest, h⟩
    · rw [h] at hi; simp at hi
    · have h0 : (callApi env fuel ctr).1[0]? = some Ev.lookup := by rw [h]; simp
      have hne : i ≠ 0 := by
        intro h0i
        rw [h0i, h] at hi
        simp at hi
      exact ⟨0, Nat.pos_of_ne_zero hne, h0⟩
  · exact callApi_write_ok env fuel ctr

/-- C6 witness: a run against a concrete environment — one miss, one dispatch,
one write — where the dispatched position is preceded by the lookup and the
written payload's status is `"OK"`. -/
theorem C6_cache_discipline_witness :
    (∃ j : Nat, j < 1 ∧
      (callApi { look := fun _ => none, net := fun _ => .ok ⟨some "OK", none, 3⟩ }
        1 (0, 0)).1[j]? = some Ev.lookup) ∧
    (⟨some "OK", none, 3⟩ : ApiData).status = some "OK" :=
  ⟨(C6_cache_discipline { look := fun _ => none, net := fun _ => .ok ⟨some "OK", none, 3⟩ }
      1 (0, 0)).1 1 (by decide),
   (C6_cache_discipline { look := fun _ => none, net := fun _ => .ok ⟨some "OK", none, 3⟩ }
      1 (0, 0)).2 ⟨some "OK", none, 3⟩ (by decide)⟩

/-! ## C9: the transport-error path discards the retry's value -/

/-- C9 (amended): when the cache lookup misses and the dispatch raises a
transport error, `call_api` returns `None` whenever the backoff retry returns
normally — the retried call's value, even a successful response, is discarded
rather than returned.  (When every retry attempt itself raises, the final
exception propagates instead; see the counterexample.) -/
theorem C9_transport_returns_none (env : Env) (fuel li ni : Nat) (a : Option ApiData)
    (hlook : env.look li = none) (hnet : env.net ni = .transportErr)
    (hretry : (retryGo (callApi env fuel) (li + 1, ni + 1) 3).2.1 = .ok a) :
    (callApi env (fuel + 1) (li, ni)).2.1 = .ok none := by
  rcases hr : retryGo (callApi env fuel) (li + 1, ni + 1) 3 with ⟨evs, r, c'⟩
  rw [hr] at hretry
  have hr2 : r = .ok a := hretry
  subst hr2
  simp [callApi, hlook, hnet, hr]

/-- C9 amended-claim witness: the first dispatch transport-fails, the retried
request succeeds, yet the caller receives `None`. -/
theorem C9_transport_returns_none_witness :
    (callApi { look := fun _ => none,
               net := fun i => if i = 0 then NetOut.transportErr
                 else .ok ⟨some "OK", none, 5⟩ } 2 (0, 0)).2.1 = .ok none :=
  C9_transport_returns_none _ 1 0 0 (some ⟨some "OK", none, 5⟩) rfl rfl (by decide)

/-- C9 counterexample: "if the initial HTTP request raises a transport error,
`call_api` returns `None`" fails as a universal statement — when the retried
attempts themselves raise `ApiError` (a `"FAILED"` envelope), the third
attempt's exception propagates to the caller, so `call_api` raises rather
than returning `None`. -/
theorem C9_counterexample :
    ({ look := fun _ => none,
       net := fun i => if i = 0 then NetOut.transportErr
         else .ok ⟨some "FAILED", some "handles: Field should not be empty", 0⟩ } : Env).net 0 =
      .transportErr ∧
    (callApi { look := fun _ => none,
               net := fun i => if i = 0 then NetOut.transportErr
                 else .ok ⟨some "FAILED", some "handles: Field should not be empty", 0⟩ }
      9 (0, 0)).2.1 =
      .error (.apiError (some "handles: Field should not be empty")) ∧
    (callApi { look := fun _ => none,
               net := fun i => if i = 0 then NetOut.transportErr
                 else .ok ⟨some "FAILED", some "handles: Field should not be empty", 0⟩ }
      9 (0, 0)).2.1 ≠ .ok none := by
  refine ⟨rfl, by decide, by decide⟩

/-! ## C10: the params-dict mutation before dispatch -/

/-- `List.lookup` through a cons, in if-form. -/
theorem lookup_cons_pair (k : String) (p : String × String) (l : Params) :
    List.lookup k (p :: l) = if k = p.1 then some p.2 else List.lookup k l := by
  rcases p with ⟨a, b⟩
  rw [List.lookup_cons]
  by_cases h : k = a
  · rw [if_pos h, show (k == a) = true from beq_iff_eq.mpr h]
  · rw [if_neg h, show (k == a) = false from beq_eq_false_iff_ne.mpr h]

/-- Replacing the binding of a present key `k` makes `lookup k` return the new
value. -/
theorem lookup_replace (k v : String) : ∀ ps : Params,
    k ∈ ps.map Prod.fst →
    (ps.map (fun p => if p.1 = k then (k, v) else p)).lookup k = some v := by
  intro ps
  induction ps with
  | nil => intro h; simp at h
  | cons p ps ih =>
    intro h
    by_cases hpk : p.1 = k
    · simp only [List.map_cons, if_pos hpk]
      rw [lookup_cons_pair]
      simp
    · simp only [List.map_cons, if_neg hpk]
      rw [lookup_cons_pair, if_neg (fun hk => hpk hk.symm)]
      apply ih
      rcases (List.mem_cons.mp h) with h1 | h1
      · exact absurd h1.symm hpk
      · exact h1

/-- The replacement rewrite leaves lookups of other keys unchanged. -/
theorem lookup_replace_other (k v q : String) (hqk : q ≠ k) : ∀ ps : Params,
    (ps.map (fun p => if p.1 = k then (k, v) else p)).lookup q = ps.lookup q := by
  intro ps
  induction ps with
  | nil => rfl
  | cons p ps ih =>
    simp only [List.map_cons]
    by_cases hpk : p.1 = k
    · rw [if_pos hpk, lookup_cons_pair, lookup_cons_pair,
        if_neg (show ¬q = (k, v).1 from hqk),
        if_neg (fun h : q = p.1 => hqk (h.trans hpk))]
      exact ih
    · rw [if_neg hpk, lookup_cons_pair, lookup_cons_pair]
      by_cases hqp : q = p.1
      · rw [if_pos hqp, if_pos hqp]
      · rw [if_neg hqp, if_neg hqp]; exact ih

/-- Appending a fresh binding makes `lookup` of its key return its value. -/
theorem lookup_append_new (k v : String) : ∀ ps : Params,
    k ∉ ps.map Prod.fst →
    (ps ++ [(k, v)]).lookup k = some v := by
  intro ps
  induction ps with
  | nil => intro _; rw [List.nil_append, lookup_cons_pair]; simp
  | cons p ps ih =>
    intro h
    have hk : ¬ k = p.1 :=
      fun hk => h (by rw [List.map_cons, hk]; exact List.mem_cons_self _ _)
    rw [List.cons_append, lookup_cons_pair, if_neg hk]
    exact ih (fun hm => h (by rw [List.map_cons]; exact List.mem_cons_of_mem _ hm))

/-- Appending a fresh binding leaves lookups of other keys unchanged. -/
theorem lookup_append_other (k v q : String) (hqk : q ≠ k) : ∀ ps : Params,
    (ps ++ [(k, v)]).lookup q = ps.lookup q := by
  intro ps
  induction ps with
  | nil => rw [List.nil_append, lookup_cons_pair, if_neg hqk]
  | cons p ps ih =>
    rw [List.cons_append, lookup_cons_pair, lookup_cons_pair]
    by_cases hqp : q = p.1
    · rw [if_pos hqp, if_pos hqp]
    · rw [if_neg hqp, if_neg hqp]; exact ih

/-- `d[k] = v` then `d[k]` is `v`. -/
theorem lookup_dset_self (ps : Params) (k v : String) :
    (dset ps k v).lookup k = some v := by
  unfold dset
  split
  · next hc => exact lookup_replace k v ps (by simpa using hc)
  · next hc => exact lookup_append_new k v ps (by simpa using hc)

/-- `d[k] = v` leaves `d[q]` unchanged for `q ≠ k`. -/
theorem lookup_dset_other (ps : Params) (k v q : String) (hqk : q ≠ k) :
    (dset ps k v).lookup q = ps.lookup q := by
  unfold dset
  split
  · exact lookup_replace_other k v q hqk ps
  · exact lookup_append_other k v q hqk ps

/-- C10: for an authenticated session and a method other than `"user.info"`,
`call_api` mutates the caller-supplied params dict in place before dispatch:
afterwards it carries the keys `apiKey`, `time`, `rand` and the computed
`apiSig`, while every other key keeps its value; for an unauthenticated
session or for `"user.info"` the caller's dict is left unchanged. -/
theorem C10_params_mutation (c : Creds) (now : Nat) (rng : Fin 6 → Fin 36)
    (method : String) (ps : Params) :
    (∀ k, c.apiKey = some k → isAuthenticated c = true → method ≠ "user.info" →
      (callApiParamsEffect c now rng method ps).lookup "apiKey" = some k ∧
      (callApiParamsEffect c now rng method ps).lookup "time" = some (toString now) ∧
      (callApiParamsEffect c now rng method ps).lookup "rand" = some (randString rng) ∧
      (∃ sig, (callApiParamsEffect c now rng method ps).lookup "apiSig" = some sig) ∧
      (∀ q, q ≠ "apiKey" → q ≠ "time" → q ≠ "rand" → q ≠ "apiSig" →
        (callApiParamsEffect c now rng method ps).lookup q = ps.lookup q)) ∧
    (isAuthenticated c = false ∨ method = "user.info" →
      callApiParamsEffect c now rng method ps = ps) := by
  constructor
  · intro k hk hauth hm
    have heff : callApiParamsEffect c now rng method ps =
        signRequest method
          (dset (dset (dset ps "apiKey" (c.apiKey.getD "")) "time" (toString now))
            "rand" (randString rng)) (c.apiSecret.getD "") := by
      unfold callApiParamsEffect
      rw [if_pos (by simp [hauth, hm])]
      unfold apiAuthParams
      rw [if_pos hauth]
      rfl
    rw [heff, hk]
    unfold signRequest
    refine ⟨?_, ?_, ?_, ⟨_, lookup_dset_self _ _ _⟩, ?_⟩
    · rw [lookup_dset_other _ _ _ _ (by decide), lookup_dset_other _ _ _ _ (by decide),
        lookup_dset_other _ _ _ _ (by decide), lookup_dset_self]
      rfl
    · rw [lookup_dset_other _ _ _ _ (by decide), lookup_dset_other _ _ _ _ (by decide),
        lookup_dset_self]
    · rw [lookup_dset_other _ _ _ _ (by decide), lookup_dset_self]
    · intro q h1 h2 h3 h4
      rw [lookup_dset_other _ _ _ _ h4, lookup_dset_other _ _ _ _ h3,
        lookup_dset_other _ _ _ _ h2, lookup_dset_other _ _ _ _ h1]
  · intro h
    rcases h with h | h <;> simp [callApiParamsEffect, h]

/-- C10 witness: with complete credentials and method `"contest.list"`, the
caller's dict gains the four auth keys and keeps its own entry; with method
`"user.info"` it is returned untouched. -/
theorem C10_params_mutation_witness :
    (callApiParamsEffect ⟨some "alice", some "K", some "S"⟩ 1700000000
      (fun _ => ⟨0, by decide⟩) "contest.list" [("gym", "true")]).lookup "apiKey" =
        some "K" ∧
    (callApiParamsEffect ⟨some "alice", some "K", some "S"⟩ 1700000000
      (fun _ => ⟨0, by decide⟩) "contest.list" [("gym", "true")]).lookup "gym" =
        some "true" ∧
    callApiParamsEffect ⟨some "alice", some "K", some "S"⟩ 1700000000
      (fun _ => ⟨0, by decide⟩) "user.info" [("gym", "true")] = [("gym", "true")] :=
  ⟨((C10_params_mutation _ 1700000000 _ "contest.list" _).1 "K" rfl (by decide)
      (by decide)).1,
   (((C10_params_mutation _ 1700000000 _ "contest.list" _).1 "K" rfl (by decide)
      (by decide)).2.2.2.2 "gym" (by decide) (by decide) (by decide) (by decide)).trans
     (by rw [lookup_cons_pair]; simp),
   (C10_params_mutation _ 1700000000 _ "user.info" _).2 (Or.inr rfl)⟩

/-! ## C3: the signature is deterministic and insertion-order independent -/

/-- Lookup is invariant under permutation of the entries when keys are unique. -/
theorem lookup_perm : ∀ {ps qs : Params}, ps.Perm qs →
    (ps.map Prod.fst).Nodup → ∀ k, ps.lookup k = qs.lookup k := by
  intro ps qs h
  induction h with
  | nil => intro _ _; rfl
  | cons x h ih =>
    intro hnd k
    rw [lookup_cons_pair, lookup_cons_pair]
    by_cases hk : k = x.1
    · rw [if_pos hk, if_pos hk]
    · rw [if_neg hk, if_neg hk]
      refine ih ?_ k
      rw [List.map_cons] at hnd
      exact (List.nodup_cons.mp hnd).2
  | swap x y l =>
    intro hnd k
    have hxy : y.1 ≠ x.1 := by
      rw [List.map_cons, List.map_cons] at hnd
      have h1 := (List.nodup_cons.mp hnd).1
      exact fun he => h1 (by rw [he]; exact List.mem_cons_self _ _)
    rw [lookup_cons_pair, lookup_cons_pair, lookup_cons_pair, lookup_cons_pair]
    split_ifs <;> simp_all
  | trans h1 h2 ih1 ih2 =>
    intro hnd k
    rw [ih1 hnd k, ih2 ((h1.map Prod.fst).nodup hnd) k]

/-- Sorting the keys is invariant under permutation of the dict entries. -/
theorem sortedKeys_perm_eq {ps qs : Params} (h : ps.Perm qs) :
    sortedKeys ps = sortedKeys qs := by
  unfold sortedKeys
  refine List.eq_of_perm_of_sorted ?_ (List.sorted_mergeSort' _) (List.sorted_mergeSort' _)
  exact (List.mergeSort_perm _ _).trans ((h.map Prod.fst).trans (List.mergeSort_perm _ _).symm)

/-- C3: the computed `apiSig` is a deterministic pure function of
(method, params, secret), and permuting the insertion order of the parameter
mapping (keys unique, as in a Python dict) does not change it, because the
keys are sorted before signing. -/
theorem C3_sign_deterministic (method secret : String) (ps qs : Params)
    (hperm : ps.Perm qs) (hnd : (ps.map Prod.fst).Nodup) :
    signApiSig method ps secret = signApiSig method ps secret ∧
    signApiSig method ps secret = signApiSig method qs secret := by
  refine ⟨rfl, ?_⟩
  unfold signApiSig sigString
  have hlk : lookupD ps = lookupD qs := by
    funext k
    unfold lookupD
    rw [lookup_perm hperm hnd k]
  rw [sortedKeys_perm_eq hperm, hlk]

/-- C3 witness: two insertion orders of the same two-entry mapping sign
identically. -/
theorem C3_sign_deterministic_witness :
    signApiSig "contest.list" [("b", "2"), ("a", "1")] "s" =
      signApiSig "contest.list" [("a", "1"), ("b", "2")] "s" :=
  (C3_sign_deterministic "contest.list" "s" [("b", "2"), ("a", "1")]
    [("a", "1"), ("b", "2")] (by decide) (by decide)).2

/-! ## C4: the exact `apiSig` formula -/

set_option maxRecDepth 1000000 in
/-- A SHA-512 known-answer test (FIPS 180-4 example vector), evaluated by the
kernel: the implementation above is the standard hash. -/
theorem sha512_known_answer :
    sha512HexOfString "abc" =
      "ddaf35a193617abacc417349ae20413112e6fa4e89a97ea20a9eeee64b55d39a2192992a274fc1a836ba3c23a3feebbd454d4423643ce80e2a9ac94fa54ca49f" := by
  decide

/-- Dropping a trailing `'&'` commutes with the strip. -/
theorem dropAmp_concat (l : List Char) :
    ((l ++ ['&']).reverse.dropWhile (fun c => c = '&')) =
      (l.reverse.dropWhile (fun c => c = '&')) := by
  rw [List.reverse_append]
  simp [List.dropWhile_cons]

/-- `rstrip('&')` absorbs a trailing `'&'`. -/
theorem rstripAmp_append_amp (s : String) : rstripAmp (s ++ "&") = rstripAmp s := by
  unfold rstripAmp
  rw [String.data_append, show ("&" : String).data = ['&'] from rfl, dropAmp_concat]

/-- `rstrip('&')` is the identity on a string not ending in `'&'`. -/
theorem rstripAmp_no_amp (s : String) (h : s.data.getLast? ≠ some '&') :
    rstripAmp s = s := by
  unfold rstripAmp
  rcases hrev : s.data.reverse with _ | ⟨c, t⟩
  · have hd : s.data = [] := by
      have := congrArg List.reverse hrev
      simpa using this
    exact String.ext (by simp [hd])
  · have hc : ¬ c = '&' := by
      have hh := List.head?_reverse s.data
      rw [hrev] at hh
      intro hceq
      apply h
      rw [← hh, hceq]
      rfl
    rw [List.dropWhile_cons, if_neg (by simpa using hc), ← hrev,
      List.reverse_reverse]

/-- The signing fold appends `"{k}={v}&"` per key: in closed form it is the
`'&'`-join of the pairs plus one trailing `'&'`. -/
theorem foldl_pairs (f : String → String) : ∀ (ks : List String) (init : String),
    ks ≠ [] →
    ks.foldl (fun acc k => acc ++ k ++ "=" ++ f k ++ "&") init =
      init ++ ampJoin (ks.map (fun k => k ++ "=" ++ f k)) ++ "&" := by
  intro ks
  induction ks with
  | nil => intro init hne; exact absurd rfl hne
  | cons k ks ih =>
    intro init _
    rcases ks with _ | ⟨k2, ks'⟩
    · show init ++ k ++ "=" ++ f k ++ "&" = init ++ ampJoin [k ++ "=" ++ f k] ++ "&"
      rw [show ampJoin [k ++ "=" ++ f k] = k ++ "=" ++ f k from rfl]
      apply String.ext
      simp [String.data_append, List.append_assoc]
    · rw [List.foldl_cons, ih _ (by simp),
        show ((k :: k2 :: ks').map (fun k => k ++ "=" ++ f k)) =
          (k ++ "=" ++ f k) :: ((k2 :: ks').map (fun k => k ++ "=" ++ f k)) from rfl,
        show ampJoin ((k ++ "=" ++ f k) :: (k2 :: ks').map (fun k => k ++ "=" ++ f k)) =
          (k ++ "=" ++ f k) ++ "&" ++
            ampJoin ((k2 :: ks').map (fun k => k ++ "=" ++ f k)) from rfl]
      apply String.ext
      simp [String.data_append, List.append_assoc]

/-- An `'&'`-join of nonempty strings is nonempty. -/
theorem ampJoin_ne_nil : ∀ (b : String) (ps : List String), b.data ≠ [] →
    (ampJoin (b :: ps)).data ≠ [] := by
  intro b ps hb
  rcases ps with _ | ⟨c, ps'⟩
  · simpa [ampJoin] using hb
  · show ((b ++ "&") ++ ampJoin (c :: ps')).data ≠ []
    rw [String.data_append, String.data_append]
    simp

/-- The last character of an `'&'`-join of nonempty strings is the last
character of its last element. -/
theorem ampJoin_last : ∀ (ps : List String) (p : String),
    (∀ q ∈ ps, q.data ≠ []) → ps.getLast? = some p →
    (ampJoin ps).data.getLast? = p.data.getLast? := by
  intro ps
  induction ps with
  | nil => intro p _ hl; simp at hl
  | cons a ps ih =>
    intro p hne hl
    rcases ps with _ | ⟨b, ps'⟩
    · have : a = p := by simpa using hl
      rw [← this]
      rfl
    · have hl' : (b :: ps').getLast? = some p := by
        rw [List.getLast?_cons_cons] at hl
        exact hl
      have hbn : b.data ≠ [] := hne b (by simp)
      show ((a ++ "&") ++ ampJoin (b :: ps')).data.getLast? = p.data.getLast?
      rw [String.data_append,
        List.getLast?_append_of_ne_nil _ (ampJoin_ne_nil b ps' hbn)]
      exact ih p (fun q hq => hne q (List.mem_cons_of_mem _ hq)) hl'

/-- A `"{k}={v}"` pair does not end in `'&'` when `v` does not. -/
theorem pair_last_no_amp (k v : String) (hv : v.data.getLast? ≠ some '&') :
    (k ++ "=" ++ v).data.getLast? ≠ some '&' := by
  rw [String.data_append]
  rcases hvd : v.data with _ | ⟨c, t⟩
  · rw [List.append_nil, String.data_append,
      show ("=" : String).data = ['='] from rfl, List.getLast?_concat]
    decide
  · rw [List.getLast?_append_of_ne_nil _ (by simp), ← hvd]
    exact hv

/-- A successful lookup's pair is an entry of the dict. -/
theorem lookup_mem : ∀ {ps : Params} {k v : String},
    ps.lookup k = some v → (k, v) ∈ ps := by
  intro ps
  induction ps with
  | nil => intro k v hl; simp [List.lookup] at hl
  | cons p ps ih =>
    intro k v hl
    rw [lookup_cons_pair] at hl
    by_cases hk : k = p.1
    · rw [if_pos hk] at hl
      have hv : p.2 = v := Option.some.inj hl
      exact List.mem_cons.mpr (Or.inl (by rw [hk, ← hv]))
    · rw [if_neg hk] at hl
      exact List.mem_cons_of_mem _ (ih hl)

/-- If no entry's value ends in `'&'`, no `lookupD` result does (an absent key
yields `""`). -/
theorem lookupD_no_amp (ps : Params)
    (h : ∀ kv ∈ ps, kv.2.data.getLast? ≠ some '&') :
    ∀ k, (lookupD ps k).data.getLast? ≠ some '&' := by
  intro k
  unfold lookupD
  rcases hl : ps.lookup k with _ | v
  · simp
  · exact h (k, v) (lookup_mem hl)

/-- The string the code hashes coincides with the claim's canonical string
whenever no parameter value ends in `'&'`. -/
theorem sigString_eq_claim (method secret : String) (ps : Params)
    (h : ∀ k, (lookupD ps k).data.getLast? ≠ some '&') :
    sigString method ps secret = claimSigString method ps secret := by
  unfold sigString claimSigString
  rcases hks : sortedKeys ps with _ | ⟨k1, ks⟩
  · rw [List.foldl_nil, rstripAmp_no_amp _ ?_]
    · apply String.ext
      simp [String.data_append, List.append_assoc, ampJoin]
    · rw [String.data_append, List.getLast?_append_of_ne_nil _ (by simp),
        show ("?" : String).data = ['?'] from rfl]
      decide
  · have hpair_ne : ∀ q ∈ (k1 ++ "=" ++ lookupD ps k1) ::
        ks.map (fun k => k ++ "=" ++ lookupD ps k), q.data ≠ [] := by
      have hmap : ∀ q ∈ (k1 :: ks).map (fun k => k ++ "=" ++ lookupD ps k),
          q.data ≠ [] := by
        intro q hq
        simp only [List.mem_map] at hq
        obtain ⟨k, _, rfl⟩ := hq
        rw [String.data_append]
        simp [String.data_append]
      exact hmap
    have hklast : ((k1 ++ "=" ++ lookupD ps k1) ::
        ks.map (fun k => k ++ "=" ++ lookupD ps k)).getLast? =
        some ((k1 :: ks).getLast (by simp) ++ "=" ++
          lookupD ps ((k1 :: ks).getLast (by simp))) := by
      have hmap : ((k1 :: ks).map (fun k => k ++ "=" ++ lookupD ps k)).getLast? =
          some ((k1 :: ks).getLast (by simp) ++ "=" ++
            lookupD ps ((k1 :: ks).getLast (by simp))) := by
        rw [List.getLast?_map, List.getLast?_eq_getLast _ (by simp)]
        rfl
      exact hmap
    rw [foldl_pairs (lookupD ps) (k1 :: ks) (method ++ "?") (by simp), List.map_cons,
      rstripAmp_append_amp, rstripAmp_no_amp _ ?_]
    rw [String.data_append,
      List.getLast?_append_of_ne_nil _
        (ampJoin_ne_nil _ _ (hpair_ne _ (by simp))),
      ampJoin_last _ _ hpair_ne hklast]
    exact pair_last_no_amp _ _ (h _)

/-- C4 (amended): the computed `apiSig` equals the constant literal prefix
`"123456"` followed by the lowercase SHA-512 hex digest of the UTF-8 bytes of
`"{method}?{k1}={v1}&{k2}={v2}&...#{secret}"` — keys in lexicographic order,
no trailing `'&'` before the `'#'` — provided no parameter value ends with the
character `'&'`.  The proviso is forced by the source's `rstrip('&')`, which
strips all trailing `'&'` characters and can therefore also eat `'&'`s that
belong to the lexicographically last value; see the counterexample. -/
theorem C4_apiSig_formula (method secret : String) (ps : Params)
    (h : ∀ kv ∈ ps, kv.2.data.getLast? ≠ some '&') :
    signApiSig method ps secret =
      "123456" ++ sha512HexOfString (claimSigString method ps secret) := by
  unfold signApiSig
  rw [sigString_eq_claim method secret ps (lookupD_no_amp ps h)]

/-- C4 witness: a concrete signing to which the formula applies. -/
theorem C4_apiSig_formula_witness :
    signApiSig "contest.list" [("apiKey", "k"), ("time", "1")] "s" =
      "123456" ++ sha512HexOfString
        (claimSigString "contest.list" [("apiKey", "k"), ("time", "1")] "s") :=
  C4_apiSig_formula "contest.list" "s" _ (by decide)

unseal List.merge List.mergeSort in
set_option maxRecDepth 1000000 in
/-- C4 counterexample: with method `"m"`, params `{"a": "x&"}` and secret
`"s"`, the code's `rstrip('&')` eats the `'&'` belonging to the value and
hashes `"m?a=x#s"`, while the claim's formula hashes `"m?a=x&#s"`; the two
`apiSig` values differ, refuting the claim as stated for every parameter
mapping. -/
theorem C4_counterexample :
    signApiSig "m" [("a", "x&")] "s" ≠
      "123456" ++ sha512HexOfString (claimSigString "m" [("a", "x&")] "s") := by
  decide

end Cfcli
